import Mathlib

set_option maxRecDepth 100000

/-!
Verification of the leaderboard-reporter workers of this repository.

Two Cloudflare-worker variants are embedded:
* the HTML-scraping variant (`tableToMarkdown` and its `scheduled` handler),
  which scrapes the contest ranking page, and
* the JSON-API variant (`responseToMarkdown` and its `scheduled` handler),
  which reads the leaderboard JSON endpoint.

Modelling conventions: a wall-clock instant is its UTC epoch time in
milliseconds (a `Nat`; `Date.getMinutes` on the worker runtime is UTC);
a parsed HTML table is the list of its header-cell texts and the list of
its body rows, each row the list of its `td` texts; JavaScript string
lengths coincide with `String.length` on the ASCII data involved; a
JavaScript exception or a `return` without value is `Option.none`; the
webhook `fetch` is modelled by the outcome value recording whether the
POST happens and with which `content` field.
-/

namespace Reporter

/-- Model of JavaScript `String.prototype.padEnd` with the default pad
string: pad with spaces up to length `n`, never truncate. -/
def padEnd (s : String) (n : Nat) : String :=
  s ++ String.mk (List.replicate (n - s.length) ' ')

/-- `CONTEST_START_AT`, the epoch milliseconds of 2025-09-05T12:00:00Z. -/
def CONTEST_START_AT_MS : Nat := 1757073600000

/-- `CONTEST_END_AT`, the epoch milliseconds of 2025-09-08T12:00:00Z. -/
def CONTEST_END_AT_MS : Nat := 1757332800000

/-- `isContestPeriod`: `date >= CONTEST_START_AT && date <= CONTEST_END_AT`
(inclusive on both ends; `Date` comparison is epoch-millisecond order). -/
def isContestPeriod (t : Nat) : Bool :=
  decide (CONTEST_START_AT_MS ≤ t) && decide (t ≤ CONTEST_END_AT_MS)

/-- `is0Minute`: `date.getMinutes() === 0`, with minutes taken in UTC. -/
def is0Minute (t : Nat) : Bool :=
  decide (t / 60000 % 60 = 0)

/-- `RANKING_PAGE_URL` of the HTML variant. -/
def RANKING_PAGE_URL : String := "https://icfpcontest2025.github.io/aedificium.html"

/-- `isMaximum`: `text === 'Maximum'`. -/
def isMaximum (text : String) : Bool := text == "Maximum"

/-- `isMaximumRow`: some `td` cell of the row has text `'Maximum'`. -/
def isMaximumRow (row : List String) : Bool := row.any isMaximum

/-- A parsed `<table>`: `header` is `some` of the `th` texts when a `thead`
exists (`none` otherwise), `rows` are the `tbody tr` rows as `td` texts. -/
structure HtmlTable where
  header : Option (List String)
  rows : List (List String)

/-- One step of the `maxLengths` update: for each cell index present in the
row, `maxLengths[index] = Math.max(maxLengths[index], cell.text.length)`.
(Rows are compared pointwise; every theorem below that touches ragged rows
restricts to tables whose rows have exactly one cell per header column.) -/
def updateMaxLengths : List Nat → List String → List Nat
  | m :: ms, c :: cs => max m c.length :: updateMaxLengths ms cs
  | ms, [] => ms
  | [], _ :: _ => []

/-- The `maxLengths` array after the first `rows.forEach` pass: seeded with
the header-cell text lengths, then updated over every body row. -/
def maxLengthsOf (headerCells : List String) (rows : List (List String)) : List Nat :=
  rows.foldl updateMaxLengths (headerCells.map String.length)

/-- The `maximumRank` variable after the first `rows.forEach` pass: the
first-cell text of the last row satisfying `isMaximumRow` (`none` when no
row matches, modelling `undefined`). -/
def findMaximumRank (rows : List (List String)) : Option String :=
  rows.foldl (fun acc row => if isMaximumRow row then row.head? else acc) none

/-- The highlight prefix: `if (maximumRank) markdown += ...` — JavaScript
truthiness makes both `undefined` and the empty string skip the line. -/
def highlightOf (maximumRank : Option String) : String :=
  match maximumRank with
  | some r => if r == "" then "" else "Maximum is **" ++ r ++ "th**\n"
  | none => ""

/-- `cells.map((cell, index) => cell.text.padEnd(maxLengths[index]))`;
a cell beyond the `maxLengths` array is returned unpadded, as
`padEnd(undefined)` leaves the string unchanged. -/
def padCells : List String → List Nat → List String
  | [], _ => []
  | c :: cs, m :: ms => padEnd c m :: padCells cs ms
  | c :: cs, [] => c :: padCells cs []

/-- Model of JavaScript `Array.prototype.join`. -/
def joinSep (sep : String) : List String → String
  | [] => ""
  | [c] => c
  | c :: c2 :: rest => c ++ sep ++ joinSep sep (c2 :: rest)

/-- One rendered table line: padded cells joined with `' | '` and wrapped
in `'| '` and `' |'`. -/
def lineOfCells (maxLengths : List Nat) (cells : List String) : String :=
  "| " ++ joinSep " | " (padCells cells maxLengths) ++ " |"

/-- The separator line: `'-'.repeat(maxLengths[index])` per header column
(`maxLengthsOf` always has exactly one entry per header column). -/
def sepLine (maxLengths : List Nat) : String :=
  "| " ++ joinSep " | " (maxLengths.map fun m => String.mk (List.replicate m '-')) ++ " |"

/-- The body-emitting `rows.forEach`: `isMaximumIncluded` is set when the
current row is a Maximum row, and the row is skipped when
`isMaximumIncluded && index > 10`. -/
def selectRowsAux (isMaximumIncluded : Bool) (index : Nat) : List (List String) → List (List String)
  | [] => []
  | row :: rest =>
    let included := isMaximumIncluded || isMaximumRow row
    if included && decide (index > 10) then selectRowsAux included (index + 1) rest
    else row :: selectRowsAux included (index + 1) rest

/-- The rows whose lines are emitted by the body loop, in order. -/
def selectedRows (rows : List (List String)) : List (List String) :=
  selectRowsAux false 0 rows

/-- The lines the renderer emits between the two code-fence markers:
the header line, the separator line, then one line per selected row. -/
def renderedLines (headerCells : List String) (rows : List (List String)) : List String :=
  lineOfCells (maxLengthsOf headerCells rows) headerCells
    :: sepLine (maxLengthsOf headerCells rows)
    :: (selectedRows rows).map (lineOfCells (maxLengthsOf headerCells rows))

/-- `tableToMarkdown`: `none` models the `console.error('Header not found');
return;` path, which produces `undefined`; the `some` case is the markdown
string the source accumulates, each emitted line followed by `'\n'`. -/
def tableToMarkdown (table : HtmlTable) : Option String :=
  match table.header with
  | none => none
  | some headerCells =>
    some (highlightOf (findMaximumRank table.rows)
      ++ RANKING_PAGE_URL ++ "\n"
      ++ "```markdown\n"
      ++ String.join ((renderedLines headerCells table.rows).map fun line => line ++ "\n")
      ++ "```\n")

/-- Outcome of one invocation of the HTML variant's `scheduled` handler. -/
inductive HtmlOutcome where
  | skippedWindow
  | skippedMinute
  | skippedNoTable
  | dispatched (content : Option String)
deriving DecidableEq, Repr

/-- The HTML variant's `scheduled` handler: gate on the contest window and
the zero-minute cadence, fetch and parse the page (modelled by the `page`
argument: `none` when `querySelector('table')` finds no table), then POST
the webhook body built from `tableToMarkdown` — the POST happens even when
`tableToMarkdown` returns `undefined`, with the `content` field absent. -/
def scheduledHtml (now : Nat) (page : Option HtmlTable) : HtmlOutcome :=
  if !isContestPeriod now then HtmlOutcome.skippedWindow
  else if !is0Minute now then HtmlOutcome.skippedMinute
  else
    match page with
    | none => HtmlOutcome.skippedNoTable
    | some table => HtmlOutcome.dispatched (tableToMarkdown table)

/-- Whether the invocation reached the ranking-page fetch. -/
def htmlFetchPerformed : HtmlOutcome → Bool
  | HtmlOutcome.skippedWindow => false
  | HtmlOutcome.skippedMinute => false
  | HtmlOutcome.skippedNoTable => true
  | HtmlOutcome.dispatched _ => true

/-- Whether the invocation performed the webhook POST. -/
def htmlDispatchPerformed : HtmlOutcome → Bool
  | HtmlOutcome.dispatched _ => true
  | _ => false

/-- One element of the JSON `APIResponse` array. -/
structure ResultItem where
  teamName : String
  teamPl : String
  score : Int
deriving DecidableEq, Repr

/-- `RANK_MAX_LENGTH`. -/
def RANK_MAX_LENGTH : Nat := 5

/-- `TEAM_NAME_MAX_LENGTH`. -/
def TEAM_NAME_MAX_LENGTH : Nat := 60

/-- `SCORE_MAX_LENGTH`. -/
def SCORE_MAX_LENGTH : Nat := 5

/-- The row-inclusion test `result.teamName === 'Maximum'` of the API
variant's body loop. -/
def isTrackedApi (result : ResultItem) : Bool := result.teamName == "Maximum"

/-- The fixed header and separator lines of the API variant. -/
def apiHeaderLines : String :=
  "| " ++ padEnd "Rank" RANK_MAX_LENGTH ++ " | " ++ padEnd "Team Name" TEAM_NAME_MAX_LENGTH
    ++ " | " ++ padEnd "Score" SCORE_MAX_LENGTH ++ " |\n"
  ++ "| " ++ String.mk (List.replicate RANK_MAX_LENGTH '-') ++ " | "
    ++ String.mk (List.replicate TEAM_NAME_MAX_LENGTH '-') ++ " | "
    ++ String.mk (List.replicate SCORE_MAX_LENGTH '-') ++ " |\n"

/-- The API variant's body loop: thread `rank`, `prevScore` and `idx`
exactly as the `for (const result of results)` loop does, emitting a row
line when `result.teamName === 'Maximum' || idx < 10`. -/
def apiBodyAux (rank : Nat) (prevScore : Int) (idx : Nat) : List ResultItem → String
  | [] => ""
  | result :: rest =>
    let rank2 := if result.score != prevScore then rank + 1 else rank
    let prevScore2 := if result.score != prevScore then result.score else prevScore
    let line :=
      if isTrackedApi result || decide (idx < 10) then
        "| " ++ padEnd (toString rank2) RANK_MAX_LENGTH ++ " | "
          ++ padEnd result.teamName TEAM_NAME_MAX_LENGTH ++ " | "
          ++ padEnd (toString result.score) SCORE_MAX_LENGTH ++ " |\n"
      else ""
    line ++ apiBodyAux rank2 prevScore2 (idx + 1) rest

/-- `responseToMarkdown`: on an empty array the seeding read
`results[0].score` throws a TypeError (property of `undefined`), modelled
by `none`; otherwise the fenced table text is produced. -/
def responseToMarkdown (results : List ResultItem) : Option String :=
  match results with
  | [] => none
  | r0 :: _ =>
    some ("```\n" ++ apiHeaderLines ++ apiBodyAux 1 r0.score 0 results ++ "```\n")

/-- The rank/`prevScore` threading of the API body loop in isolation: the
rank assigned to each entry, in order. -/
def ranksAux (rank : Nat) (prevScore : Int) : List ResultItem → List Nat
  | [] => []
  | result :: rest =>
    let rank2 := if result.score != prevScore then rank + 1 else rank
    let prevScore2 := if result.score != prevScore then result.score else prevScore
    rank2 :: ranksAux rank2 prevScore2 rest

/-- Ranks assigned by the engine: `rank = 1`, `prevScore = results[0].score`,
then the loop over all entries (the first entry included). -/
def assignRanks : List ResultItem → List Nat
  | [] => []
  | r0 :: rest => ranksAux 1 r0.score (r0 :: rest)

/-- Outcome of one invocation of the API variant's `scheduled` handler. -/
inductive ApiOutcome where
  | skippedWindow
  | failed
  | dispatched (content : String)
deriving DecidableEq, Repr

/-- The API variant's `scheduled` handler: gate on the contest window only,
fetch the JSON (modelled by the `results` argument), then POST the webhook.
The POST body is evaluated before the webhook `fetch` is invoked, so when
`responseToMarkdown` throws the invocation fails without any POST. -/
def scheduledApi (now : Nat) (results : List ResultItem) : ApiOutcome :=
  if !isContestPeriod now then ApiOutcome.skippedWindow
  else
    match responseToMarkdown results with
    | none => ApiOutcome.failed
    | some md => ApiOutcome.dispatched md

/-- Whether the invocation reached the leaderboard fetch. -/
def apiFetchPerformed : ApiOutcome → Bool
  | ApiOutcome.skippedWindow => false
  | ApiOutcome.failed => true
  | ApiOutcome.dispatched _ => true

/-- Whether the invocation performed the webhook POST. -/
def apiDispatchPerformed : ApiOutcome → Bool
  | ApiOutcome.dispatched _ => true
  | _ => false

/-! ### Rank-engine lemmas -/

theorem ranksAux_cons (rank : Nat) (prev : Int) (r : ResultItem) (rest : List ResultItem) :
    ranksAux rank prev (r :: rest) =
      (if r.score != prev then rank + 1 else rank) ::
        ranksAux (if r.score != prev then rank + 1 else rank) r.score rest := by
  by_cases h : r.score = prev
  · subst h
    simp [ranksAux]
  · simp [ranksAux, h]

theorem ranksAux_length (rank : Nat) (prev : Int) (l : List ResultItem) :
    (ranksAux rank prev l).length = l.length := by
  induction l generalizing rank prev with
  | nil => rfl
  | cons r rest ih => rw [ranksAux_cons]; simp [ih]

theorem ranksAux_getD_zero (rank : Nat) (prev : Int) (r : ResultItem) (rest : List ResultItem) :
    (ranksAux rank prev (r :: rest)).getD 0 0 = if r.score != prev then rank + 1 else rank := by
  rw [ranksAux_cons, List.getD_cons_zero]

theorem ranksAux_getD_succ (l : List ResultItem) :
    ∀ (rank : Nat) (prev : Int) (i : Nat), i + 1 < l.length →
      (ranksAux rank prev l).getD (i + 1) 0 =
        if (l.map ResultItem.score).getD (i + 1) 0 != (l.map ResultItem.score).getD i 0
        then (ranksAux rank prev l).getD i 0 + 1
        else (ranksAux rank prev l).getD i 0 := by
  induction l with
  | nil => intro rank prev i h; simp at h
  | cons r rest ih =>
    intro rank prev i h
    rw [ranksAux_cons]
    cases i with
    | zero =>
      cases rest with
      | nil => simp at h
      | cons r2 rest2 =>
        simp only [List.getD_cons_succ, List.getD_cons_zero, List.map_cons]
        rw [ranksAux_getD_zero]
    | succ j =>
      simp only [List.getD_cons_succ, List.map_cons]
      exact ih _ _ j (by simpa using h)

theorem assignRanks_length (results : List ResultItem) :
    (assignRanks results).length = results.length := by
  cases results with
  | nil => rfl
  | cons r0 rest => exact ranksAux_length 1 r0.score (r0 :: rest)

theorem assignRanks_getD_zero (r0 : ResultItem) (rest : List ResultItem) :
    (assignRanks (r0 :: rest)).getD 0 0 = 1 := by
  show (ranksAux 1 r0.score (r0 :: rest)).getD 0 0 = 1
  rw [ranksAux_getD_zero]
  simp

theorem assignRanks_getD_succ (results : List ResultItem) (i : Nat) (h : i + 1 < results.length) :
    (assignRanks results).getD (i + 1) 0 =
      if (results.map ResultItem.score).getD (i + 1) 0 != (results.map ResultItem.score).getD i 0
      then (assignRanks results).getD i 0 + 1
      else (assignRanks results).getD i 0 := by
  cases results with
  | nil => simp at h
  | cons r0 rest => exact ranksAux_getD_succ (r0 :: rest) 1 r0.score i h

theorem le_of_adjacent_le {α : Type} [Preorder α] (f : Nat → α) :
    ∀ i j : Nat, i ≤ j → (∀ k, i ≤ k → k + 1 ≤ j → f k ≤ f (k + 1)) → f i ≤ f j := by
  intro i j hij
  induction j, hij using Nat.le_induction with
  | base => intro _; exact le_refl _
  | succ j hj ih =>
    intro hstep
    exact le_trans (ih fun k hk hk2 => hstep k hk (le_trans hk2 (Nat.le_succ j)))
      (hstep j hj (le_refl _))

theorem eq_of_adjacent_eq {α : Type} (f : Nat → α) :
    ∀ i j : Nat, i ≤ j → (∀ k, i ≤ k → k + 1 ≤ j → f (k + 1) = f k) → f j = f i := by
  intro i j hij
  induction j, hij using Nat.le_induction with
  | base => intro _; rfl
  | succ j hj ih =>
    intro hstep
    rw [hstep j hj (le_refl _), ih fun k hk hk2 => hstep k hk (le_trans hk2 (Nat.le_succ j))]

theorem assignRanks_mono (results : List ResultItem) (i j : Nat) (hij : i ≤ j)
    (hj : j < results.length) :
    (assignRanks results).getD i 0 ≤ (assignRanks results).getD j 0 := by
  refine le_of_adjacent_le (fun k => (assignRanks results).getD k 0) i j hij ?_
  intro k _ hk2
  show (assignRanks results).getD k 0 ≤ (assignRanks results).getD (k + 1) 0
  rw [assignRanks_getD_succ results k (lt_of_le_of_lt hk2 hj)]
  split
  · exact Nat.le_succ _
  · exact le_refl _

/-- C2: on a non-empty entry sequence the Rank Engine assigns rank 1 to the
first entry, the assigned rank sequence is non-decreasing, and consecutive
ranks satisfy rank(i+1) = rank(i) + 1 when score(i+1) differs from score(i)
and rank(i+1) = rank(i) when the scores coincide (the loop increments the
rank and updates `prevScore` exactly at a score change). -/
theorem rank_engine_correct (results : List ResultItem) (hne : results ≠ []) :
    (assignRanks results).length = results.length ∧
    (assignRanks results).getD 0 0 = 1 ∧
    (∀ i j : Nat, i ≤ j → j < results.length →
      (assignRanks results).getD i 0 ≤ (assignRanks results).getD j 0) ∧
    (∀ i : Nat, i + 1 < results.length →
      ((results.map ResultItem.score).getD (i + 1) 0 ≠ (results.map ResultItem.score).getD i 0 →
        (assignRanks results).getD (i + 1) 0 = (assignRanks results).getD i 0 + 1) ∧
      ((results.map ResultItem.score).getD (i + 1) 0 = (results.map ResultItem.score).getD i 0 →
        (assignRanks results).getD (i + 1) 0 = (assignRanks results).getD i 0)) := by
  obtain ⟨r0, rest, rfl⟩ : ∃ r0 rest, results = r0 :: rest := by
    cases results with
    | nil => exact absurd rfl hne
    | cons a b => exact ⟨a, b, rfl⟩
  refine ⟨assignRanks_length _, assignRanks_getD_zero r0 rest,
    fun i j hij hj => assignRanks_mono _ i j hij hj, ?_⟩
  intro i h
  constructor
  · intro hne2
    rw [assignRanks_getD_succ (r0 :: rest) i h, if_pos (by simpa [bne_iff_ne] using hne2)]
  · intro heq
    rw [assignRanks_getD_succ (r0 :: rest) i h, if_neg (by rw [heq]; simp)]

/-- A concrete four-entry leaderboard used as witness input. -/
def witnessResults : List ResultItem :=
  [⟨"Alpha", "rust", 100⟩, ⟨"Maximum", "rust", 90⟩, ⟨"Beta", "rust", 90⟩, ⟨"Gamma", "rust", 80⟩]

/-- Witness for C2 at a concrete four-entry leaderboard. -/
theorem rank_engine_correct_witness :
    witnessResults ≠ [] ∧
    ((assignRanks witnessResults).length = witnessResults.length ∧
    (assignRanks witnessResults).getD 0 0 = 1 ∧
    (∀ i j : Nat, i ≤ j → j < witnessResults.length →
      (assignRanks witnessResults).getD i 0 ≤ (assignRanks witnessResults).getD j 0) ∧
    (∀ i : Nat, i + 1 < witnessResults.length →
      ((witnessResults.map ResultItem.score).getD (i + 1) 0 ≠
          (witnessResults.map ResultItem.score).getD i 0 →
        (assignRanks witnessResults).getD (i + 1) 0 = (assignRanks witnessResults).getD i 0 + 1) ∧
      ((witnessResults.map ResultItem.score).getD (i + 1) 0 =
          (witnessResults.map ResultItem.score).getD i 0 →
        (assignRanks witnessResults).getD (i + 1) 0 = (assignRanks witnessResults).getD i 0))) :=
  ⟨by decide, rank_engine_correct witnessResults (by decide)⟩

theorem assignRanks_ties_aux (results : List ResultItem)
    (hsorted : ∀ k : Nat, k + 1 < results.length →
      (results.map ResultItem.score).getD (k + 1) 0 ≤ (results.map ResultItem.score).getD k 0)
    (i j : Nat) (hij : i ≤ j) (hj : j < results.length) :
    ((assignRanks results).getD i 0 = (assignRanks results).getD j 0 ↔
      (results.map ResultItem.score).getD i 0 = (results.map ResultItem.score).getD j 0) := by
  constructor
  · intro hrk
    refine (eq_of_adjacent_eq (fun k => (results.map ResultItem.score).getD k 0) i j hij ?_).symm
    intro k hk hk2
    show (results.map ResultItem.score).getD (k + 1) 0 = (results.map ResultItem.score).getD k 0
    by_contra hne2
    have hstep := assignRanks_getD_succ results k (lt_of_le_of_lt hk2 hj)
    rw [if_pos (by simpa [bne_iff_ne] using hne2)] at hstep
    have h1 : (assignRanks results).getD i 0 ≤ (assignRanks results).getD k 0 :=
      assignRanks_mono results i k hk (lt_of_le_of_lt (Nat.le_succ k) (lt_of_le_of_lt hk2 hj))
    have h2 : (assignRanks results).getD (k + 1) 0 ≤ (assignRanks results).getD j 0 :=
      assignRanks_mono results (k + 1) j hk2 hj
    omega
  · intro hsc
    have hchain : ∀ a b : Nat, a ≤ b → b ≤ j →
        (results.map ResultItem.score).getD b 0 ≤ (results.map ResultItem.score).getD a 0 := by
      intro a b hab hbj
      have hmono := le_of_adjacent_le (fun k => -((results.map ResultItem.score).getD k 0)) a b hab ?_
      · have hmono2 : -((results.map ResultItem.score).getD a 0) ≤
            -((results.map ResultItem.score).getD b 0) := hmono
        omega
      · intro k _ hk2
        show -((results.map ResultItem.score).getD k 0) ≤
          -((results.map ResultItem.score).getD (k + 1) 0)
        have := hsorted k (lt_of_le_of_lt (le_trans hk2 hbj) hj)
        omega
    have hflat : ∀ k, i ≤ k → k + 1 ≤ j →
        (results.map ResultItem.score).getD (k + 1) 0 =
          (results.map ResultItem.score).getD k 0 := by
      intro k hk hk2
      have h1 := hsorted k (lt_of_le_of_lt hk2 hj)
      have h2 := hchain (k + 1) j hk2 (le_refl j)
      have h3 := hchain i k hk (le_trans (Nat.le_succ k) hk2)
      omega
    refine (eq_of_adjacent_eq (fun k => (assignRanks results).getD k 0) i j hij ?_).symm
    intro k hk hk2
    show (assignRanks results).getD (k + 1) 0 = (assignRanks results).getD k 0
    rw [assignRanks_getD_succ results k (lt_of_le_of_lt hk2 hj), hflat k hk hk2]
    simp

/-- C5: on a sequence sorted by non-increasing score, the assigned ranks are
non-decreasing along the sequence and two entries receive equal rank exactly
when they have equal score. -/
theorem rank_engine_tie_invariant (results : List ResultItem)
    (hsorted : ∀ k : Nat, k + 1 < results.length →
      (results.map ResultItem.score).getD (k + 1) 0 ≤ (results.map ResultItem.score).getD k 0) :
    (∀ i j : Nat, i ≤ j → j < results.length →
      (assignRanks results).getD i 0 ≤ (assignRanks results).getD j 0) ∧
    (∀ i j : Nat, i < results.length → j < results.length →
      ((assignRanks results).getD i 0 = (assignRanks results).getD j 0 ↔
        (results.map ResultItem.score).getD i 0 = (results.map ResultItem.score).getD j 0)) := by
  refine ⟨fun i j hij hj => assignRanks_mono results i j hij hj, ?_⟩
  intro i j hi hj
  rcases le_total i j with h | h
  · exact assignRanks_ties_aux results hsorted i j h hj
  · have haux := assignRanks_ties_aux results hsorted j i h hi
    exact ⟨fun e => (haux.mp e.symm).symm, fun e => (haux.mpr e.symm).symm⟩

/-- Witness for C5 at a concrete four-entry leaderboard. -/
theorem rank_engine_tie_invariant_witness :
    (∀ k : Nat, k + 1 < witnessResults.length →
      (witnessResults.map ResultItem.score).getD (k + 1) 0 ≤
        (witnessResults.map ResultItem.score).getD k 0) ∧
    ((∀ i j : Nat, i ≤ j → j < witnessResults.length →
      (assignRanks witnessResults).getD i 0 ≤ (assignRanks witnessResults).getD j 0) ∧
    (∀ i j : Nat, i < witnessResults.length → j < witnessResults.length →
      ((assignRanks witnessResults).getD i 0 = (assignRanks witnessResults).getD j 0 ↔
        (witnessResults.map ResultItem.score).getD i 0 =
          (witnessResults.map ResultItem.score).getD j 0))) := by
  have hsorted : ∀ k : Nat, k + 1 < witnessResults.length →
      (witnessResults.map ResultItem.score).getD (k + 1) 0 ≤
        (witnessResults.map ResultItem.score).getD k 0 := by
    intro k hk
    have hk4 : k + 1 < 4 := hk
    have hk3 : k < 3 := by omega
    interval_cases k <;> decide
  exact ⟨hsorted, rank_engine_tie_invariant witnessResults hsorted⟩

/-! ### Truncation, gating and dispatch claims -/

/-- A 15-row ranking table body with distinct descending scores whose
tracked row sits at index 12 (the Scenario-B shape of the spec). -/
def scenarioBRows : List (List String) :=
  [["1", "Team0", "100"], ["2", "Team1", "99"], ["3", "Team2", "98"],
   ["4", "Team3", "97"], ["5", "Team4", "96"], ["6", "Team5", "95"],
   ["7", "Team6", "94"], ["8", "Team7", "93"], ["9", "Team8", "92"],
   ["10", "Team9", "91"], ["11", "Team10", "90"], ["12", "Team11", "89"],
   ["13", "Maximum", "88"], ["14", "Team13", "87"], ["15", "Team14", "86"]]

/-- C1 (evaluation at the failing input): on a 15-row table whose tracked
row sits at index 12, the body loop emits exactly rows 0–11 and omits the
tracked row itself, while the stated policy (`include i iff i ≤ 10 ∨
i ≤ cutoffIndex`, here cutoffIndex = 12) demands rows 0–12 inclusive. -/
theorem truncation_drops_tracked_row :
    scenarioBRows.length = 15 ∧
    isMaximumRow (scenarioBRows.getD 12 []) = true ∧
    ((scenarioBRows.take 12).all fun row => !isMaximumRow row) = true ∧
    selectedRows scenarioBRows = scenarioBRows.take 12 ∧
    (selectedRows scenarioBRows).contains (scenarioBRows.getD 12 []) = false := by
  decide

/-- A parsed table with body rows but no `thead`. -/
def noHeaderTable : HtmlTable := ⟨none, [["1", "Maximum", "100"]]⟩

/-- C3 counterexample: during the contest window at minute 0, a table with
no header row makes the renderer produce no output, yet the invocation
still performs the webhook POST (with an absent `content` field), so the
pipeline does not abort before dispatch. -/
theorem header_missing_counterexample :
    noHeaderTable.header = none ∧
    tableToMarkdown noHeaderTable = none ∧
    scheduledHtml CONTEST_START_AT_MS (some noHeaderTable) = HtmlOutcome.dispatched none ∧
    htmlDispatchPerformed (scheduledHtml CONTEST_START_AT_MS (some noHeaderTable)) = true := by
  decide

/-- C3 amended: when no header row exists the renderer signals the failure
and produces no rendered output, but the invocation does not abort before
dispatch — the webhook POST is still performed, carrying no rendered
table. -/
theorem header_missing_amended (now : Nat) (rows : List (List String))
    (h1 : isContestPeriod now = true) (h2 : is0Minute now = true) :
    tableToMarkdown ⟨none, rows⟩ = none ∧
    scheduledHtml now (some ⟨none, rows⟩) = HtmlOutcome.dispatched none := by
  refine ⟨rfl, ?_⟩
  simp [scheduledHtml, h1, h2, tableToMarkdown]

/-- Witness for the amended C3 at the window-opening instant. -/
theorem header_missing_amended_witness :
    isContestPeriod CONTEST_START_AT_MS = true ∧
    is0Minute CONTEST_START_AT_MS = true ∧
    (tableToMarkdown ⟨none, [["1"]]⟩ = none ∧
      scheduledHtml CONTEST_START_AT_MS (some ⟨none, [["1"]]⟩) = HtmlOutcome.dispatched none) :=
  ⟨by decide, by decide,
    header_missing_amended CONTEST_START_AT_MS [["1"]] (by decide) (by decide)⟩

/-- C4: an empty API payload makes the row construction fail at the
`results[0].score` seeding before the webhook call is reached, so the
invocation performs no webhook POST. -/
theorem empty_api_no_dispatch (now : Nat) :
    responseToMarkdown [] = none ∧
    apiDispatchPerformed (scheduledApi now []) = false := by
  refine ⟨rfl, ?_⟩
  unfold scheduledApi
  split
  · rfl
  · rfl

/-- C6 counterexample: a row whose rank cell (column 0) reads `Maximum`
is treated as the tracked row even though no name cell matches — the
match scans every `td` cell, not only the name field. -/
theorem tracked_match_counterexample :
    isMaximumRow ["Maximum", "Alpha", "100"] = true ∧
    (("Alpha" : String) == "Maximum") = false ∧
    (("100" : String) == "Maximum") = false := by
  decide

/-- C6 amended: matching is exact and case-sensitive against the literal
`"Maximum"` in both variants, but while the API variant compares only the
`teamName` field, the HTML variant treats a row as tracked when any of its
cells' text equals the literal. -/
theorem tracked_match_amended :
    (∀ result : ResultItem, isTrackedApi result = (result.teamName == "Maximum")) ∧
    (∀ row : List String, isMaximumRow row = row.any fun cell => cell == "Maximum") ∧
    isTrackedApi ⟨"maximum", "", 0⟩ = false ∧
    isMaximumRow [" Maximum"] = false ∧
    isMaximumRow ["MAXIMUM"] = false := by
  exact ⟨fun _ => rfl, fun _ => rfl, by decide, by decide, by decide⟩

/-- C9: the pipeline reaches the leaderboard fetch exactly when the current
time lies in the inclusive contest window and the cadence predicate holds
(minute-of-hour zero for the HTML variant, always true for the API
variant); one minute before the window opens, no fetch happens. -/
theorem time_gate_correct (now : Nat) (page : Option HtmlTable) (results : List ResultItem) :
    htmlFetchPerformed (scheduledHtml now page) = (isContestPeriod now && is0Minute now) ∧
    apiFetchPerformed (scheduledApi now results) = isContestPeriod now ∧
    htmlFetchPerformed (scheduledHtml (CONTEST_START_AT_MS - 60000) page) = false ∧
    apiFetchPerformed (scheduledApi (CONTEST_START_AT_MS - 60000) results) = false := by
  have hgate : ∀ (t : Nat) (p : Option HtmlTable),
      htmlFetchPerformed (scheduledHtml t p) = (isContestPeriod t && is0Minute t) := by
    intro t p
    cases hc : isContestPeriod t
    · simp [scheduledHtml, hc, htmlFetchPerformed]
    · cases hm : is0Minute t
      · simp [scheduledHtml, hc, hm, htmlFetchPerformed]
      · cases p <;> simp [scheduledHtml, hc, hm, htmlFetchPerformed]
  have hapi : ∀ (t : Nat) (rs : List ResultItem),
      apiFetchPerformed (scheduledApi t rs) = isContestPeriod t := by
    intro t rs
    cases hc : isContestPeriod t
    · simp [scheduledApi, hc, apiFetchPerformed]
    · unfold scheduledApi
      rw [hc]
      simp only [Bool.not_true, Bool.false_eq_true, if_false]
      split <;> rfl
  refine ⟨hgate now page, hapi now results, ?_, ?_⟩
  · rw [hgate, show isContestPeriod (CONTEST_START_AT_MS - 60000) = false from by decide]
    rfl
  · rw [hapi]
    decide

/-- C10 (implicit): every successful HTML rendering contains the fixed
ranking-page URL on a line of its own, after the optional highlight line
and before the opening code fence. -/
theorem ranking_url_line (table : HtmlTable) (headerCells : List String)
    (h : table.header = some headerCells) :
    (∃ rest : String, tableToMarkdown table =
      some (highlightOf (findMaximumRank table.rows) ++ (RANKING_PAGE_URL ++ "\n") ++
        ("```markdown\n" ++ rest))) ∧
    (highlightOf (findMaximumRank table.rows) = "" ∨
      ∃ r : String, highlightOf (findMaximumRank table.rows) = "Maximum is **" ++ r ++ "th**\n") := by
  obtain ⟨hdr, rows⟩ := table
  have h2 : hdr = some headerCells := h
  subst h2
  constructor
  · refine ⟨String.join ((renderedLines headerCells rows).map fun line => line ++ "\n")
      ++ "```\n", ?_⟩
    simp only [tableToMarkdown, String.append_assoc]
  · rcases hfm : findMaximumRank rows with _ | r
    · left; simp [highlightOf]
    · by_cases hr : (r == "") = true
      · left; simp [highlightOf, hr]
      · right; exact ⟨r, by simp [highlightOf, hr]⟩

/-- Witness for C10 at a one-column, zero-row table. -/
theorem ranking_url_line_witness :
    (⟨some ["A"], []⟩ : HtmlTable).header = some ["A"] ∧
    ((∃ rest : String, tableToMarkdown ⟨some ["A"], []⟩ =
      some (highlightOf (findMaximumRank (⟨some ["A"], []⟩ : HtmlTable).rows) ++
        (RANKING_PAGE_URL ++ "\n") ++ ("```markdown\n" ++ rest))) ∧
    (highlightOf (findMaximumRank (⟨some ["A"], []⟩ : HtmlTable).rows) = "" ∨
      ∃ r : String, highlightOf (findMaximumRank (⟨some ["A"], []⟩ : HtmlTable).rows) =
        "Maximum is **" ++ r ++ "th**\n")) :=
  ⟨rfl, ranking_url_line ⟨some ["A"], []⟩ ["A"] rfl⟩

/-! ### Highlight-line claims -/

/-- A table whose tracked row's first column is empty text. -/
def emptyRankTable : HtmlTable := ⟨some ["Rank", "Team"], [["", "Maximum"]]⟩

/-- C7 counterexample: the tracked entry exists in the row sequence, yet
because its first-column text is the empty string (falsy in JavaScript)
no highlight line is prepended — the rendered output starts with the
ranking-page URL instead. -/
theorem highlight_missing_counterexample :
    (emptyRankTable.rows.any isMaximumRow) = true ∧
    findMaximumRank emptyRankTable.rows = some "" ∧
    tableToMarkdown emptyRankTable =
      some "https://icfpcontest2025.github.io/aedificium.html\n```markdown\n| Rank | Team    |\n| ---- | ------- |\n|      | Maximum |\n```\n" ∧
    (("https://icfpcontest2025.github.io/aedificium.html\n```markdown\n| Rank | Team    |\n| ---- | ------- |\n|      | Maximum |\n```\n".data.take 10) == "Maximum is".data) = false ∧
    (("https://icfpcontest2025.github.io/aedificium.html\n```markdown\n| Rank | Team    |\n| ---- | ------- |\n|      | Maximum |\n```\n".data.take 49) == RANKING_PAGE_URL.data) = true := by
  decide

/-- The Scenario-A leaderboard as the HTML variant sees it. -/
def scenarioATable : HtmlTable :=
  ⟨some ["Rank", "Team", "Score"],
   [["1", "Alpha", "100"], ["2", "Maximum", "90"], ["2", "Beta", "90"], ["3", "Gamma", "80"]]⟩

/-- C7 amended: when the tracked entry exists in the full untruncated row
sequence and the tracked row's first-column text is non-empty, the output
is prepended with `Maximum is **<rank>th**` where `<rank>` is that
first-column text (the last tracked row wins); with an empty first-column
text the line is omitted. On the Scenario-A input the output carries the
highlight line `Maximum is **2th**`, all four rows are included, and the
recomputed ranks are `[1, 2, 2, 3]`. -/
theorem highlight_line_amended (table : HtmlTable) (headerCells : List String) (r : String)
    (hhead : table.header = some headerCells)
    (hrank : findMaximumRank table.rows = some r)
    (hr : (r == "") = false) :
    (∃ rest : String, tableToMarkdown table = some ("Maximum is **" ++ r ++ "th**\n" ++ rest)) ∧
    assignRanks witnessResults = [1, 2, 2, 3] ∧
    selectedRows scenarioATable.rows = scenarioATable.rows ∧
    (∃ restA : String, tableToMarkdown scenarioATable = some ("Maximum is **2th**\n" ++ restA)) := by
  obtain ⟨hdr, rows⟩ := table
  have h2 : hdr = some headerCells := hhead
  subst h2
  refine ⟨?_, by decide, by decide, ?_⟩
  · refine ⟨RANKING_PAGE_URL ++ "\n" ++ "```markdown\n"
      ++ String.join ((renderedLines headerCells rows).map fun line => line ++ "\n")
      ++ "```\n", ?_⟩
    simp only [tableToMarkdown, hrank, highlightOf, hr, Bool.false_eq_true, if_false,
      String.append_assoc]
  · exact ⟨"https://icfpcontest2025.github.io/aedificium.html\n```markdown\n| Rank | Team    | Score |\n| ---- | ------- | ----- |\n| 1    | Alpha   | 100   |\n| 2    | Maximum | 90    |\n| 2    | Beta    | 90    |\n| 3    | Gamma   | 80    |\n```\n", by decide⟩

/-- Witness for the amended C7 at the Scenario-A table. -/
theorem highlight_line_amended_witness :
    scenarioATable.header = some ["Rank", "Team", "Score"] ∧
    findMaximumRank scenarioATable.rows = some "2" ∧
    (("2" : String) == "") = false ∧
    ((∃ rest : String, tableToMarkdown scenarioATable =
        some ("Maximum is **" ++ "2" ++ "th**\n" ++ rest)) ∧
      assignRanks witnessResults = [1, 2, 2, 3] ∧
      selectedRows scenarioATable.rows = scenarioATable.rows ∧
      (∃ restA : String, tableToMarkdown scenarioATable = some ("Maximum is **2th**\n" ++ restA))) :=
  ⟨rfl, by decide, by decide,
    highlight_line_amended scenarioATable ["Rank", "Team", "Score"] "2" rfl (by decide) (by decide)⟩

/-! ### Column-width lemmas -/

theorem padEnd_length (s : String) (n : Nat) : (padEnd s n).length = max s.length n := by
  simp [padEnd, String.length_append]
  omega

theorem updateMaxLengths_length (ms : List Nat) (cs : List String) :
    (updateMaxLengths ms cs).length = ms.length := by
  induction ms generalizing cs with
  | nil => cases cs <;> rfl
  | cons m ms2 ih =>
    cases cs with
    | nil => rfl
    | cons c cs2 => simp [updateMaxLengths, ih]

theorem foldl_update_length (rows : List (List String)) :
    ∀ ms : List Nat, (rows.foldl updateMaxLengths ms).length = ms.length := by
  induction rows with
  | nil => intro ms; rfl
  | cons row rest ih =>
    intro ms
    rw [List.foldl_cons, ih, updateMaxLengths_length]

theorem maxLengthsOf_length (headerCells : List String) (rows : List (List String)) :
    (maxLengthsOf headerCells rows).length = headerCells.length := by
  rw [maxLengthsOf, foldl_update_length, List.length_map]

theorem updateMaxLengths_getD (ms : List Nat) :
    ∀ (cs : List String) (j : Nat), cs.length ≤ ms.length →
      (updateMaxLengths ms cs).getD j 0 = max (ms.getD j 0) ((cs.getD j "").length) := by
  induction ms with
  | nil =>
    intro cs j h
    have : cs = [] := List.length_eq_zero.mp (Nat.le_zero.mp h)
    subst this
    simp [updateMaxLengths]
  | cons m ms2 ih =>
    intro cs j h
    cases cs with
    | nil => simp [updateMaxLengths]
    | cons c cs2 =>
      cases j with
      | zero => simp [updateMaxLengths]
      | succ j2 =>
        simp only [updateMaxLengths, List.getD_cons_succ]
        exact ih cs2 j2 (Nat.le_of_succ_le_succ h)

theorem foldr_max_max (a b : Nat) (l : List Nat) :
    List.foldr max (max a b) l = max a (List.foldr max b l) := by
  induction l with
  | nil => rfl
  | cons x xs ih => simp [List.foldr_cons, ih, Nat.max_left_comm]

theorem maxLengths_getD_foldr (rows : List (List String)) :
    ∀ ms : List Nat, (∀ row ∈ rows, row.length ≤ ms.length) → ∀ j : Nat,
      (rows.foldl updateMaxLengths ms).getD j 0 =
        List.foldr max (ms.getD j 0) (rows.map fun row => (row.getD j "").length) := by
  induction rows with
  | nil => intro ms _ j; rfl
  | cons row rest ih =>
    intro ms hlen j
    rw [List.foldl_cons, ih (updateMaxLengths ms row)
      (fun r hr => by rw [updateMaxLengths_length]; exact hlen r (List.mem_cons_of_mem row hr)),
      updateMaxLengths_getD ms row j (hlen row (List.mem_cons_self row rest)),
      Nat.max_comm, List.map_cons, List.foldr_cons, foldr_max_max]

theorem le_foldr_max_init (b : Nat) (l : List Nat) : b ≤ List.foldr max b l := by
  induction l with
  | nil => exact le_refl b
  | cons x xs ih => exact le_trans ih (Nat.le_max_right x (List.foldr max b xs))

theorem le_foldr_max_mem (b x : Nat) (l : List Nat) (hx : x ∈ l) : x ≤ List.foldr max b l := by
  induction l with
  | nil => cases hx
  | cons y ys ih =>
    rcases List.mem_cons.mp hx with h | h
    · subst h; exact Nat.le_max_left x (List.foldr max b ys)
    · exact le_trans (ih h) (Nat.le_max_right y (List.foldr max b ys))

theorem getD_map_length (hc : List String) : ∀ j : Nat,
    (hc.map String.length).getD j 0 = (hc.getD j "").length := by
  induction hc with
  | nil => intro j; cases j <;> rfl
  | cons c cs ih =>
    intro j
    cases j with
    | zero => rfl
    | succ j2 => simp only [List.map_cons, List.getD_cons_succ]; exact ih j2

/-- The column width the spec describes: the maximum text length over the
header label and every body cell of column `j`, across the entire dataset
(before truncation). -/
def specColumnWidth (headerCells : List String) (rows : List (List String)) (j : Nat) : Nat :=
  List.foldr max ((headerCells.getD j "").length) (rows.map fun row => (row.getD j "").length)

theorem maxLengthsOf_getD (headerCells : List String) (rows : List (List String))
    (hrect : ∀ row ∈ rows, row.length = headerCells.length) (j : Nat) :
    (maxLengthsOf headerCells rows).getD j 0 = specColumnWidth headerCells rows j := by
  rw [maxLengthsOf, maxLengths_getD_foldr rows (headerCells.map String.length)
    (fun row hr => by rw [List.length_map]; exact le_of_eq (hrect row hr)),
    getD_map_length]
  rfl

theorem joinSep_length (sep : String) : ∀ parts : List String,
    (joinSep sep parts).length = (parts.map String.length).sum + sep.length * (parts.length - 1)
  | [] => by simp [joinSep]
  | [c] => by simp [joinSep]
  | c :: c2 :: rest => by
    have ih := joinSep_length sep (c2 :: rest)
    simp only [joinSep, String.length_append, ih, List.map_cons, List.sum_cons,
      List.length_cons, Nat.add_sub_cancel]
    ring

theorem padCells_map_length : ∀ (cells : List String) (ms : List Nat),
    cells.length = ms.length →
    (∀ j : Nat, j < cells.length → (cells.getD j "").length ≤ ms.getD j 0) →
    (padCells cells ms).map String.length = ms := by
  intro cells
  induction cells with
  | nil =>
    intro ms hlen _
    have : ms = [] := List.length_eq_zero.mp hlen.symm
    subst this
    rfl
  | cons c cs ih =>
    intro ms hlen hb
    cases ms with
    | nil => simp at hlen
    | cons m ms2 =>
      have h0 : c.length ≤ m := by
        have := hb 0 (Nat.succ_pos cs.length)
        simpa using this
      simp only [padCells, List.map_cons, padEnd_length, Nat.max_eq_right h0]
      rw [ih ms2 (Nat.succ_injective hlen) ?_]
      intro j hj
      have := hb (j + 1) (Nat.succ_lt_succ hj)
      simpa using this

theorem dash_lengths (ml : List Nat) :
    ((ml.map fun m => String.mk (List.replicate m '-')).map String.length) = ml := by
  induction ml with
  | nil => rfl
  | cons m ms ih =>
    simp only [List.map_cons, List.cons.injEq]
    exact ⟨by simp [String.length], ih⟩

theorem joinSep_wrap_length (parts : List String) (ml : List Nat)
    (h : parts.map String.length = ml) :
    ("| " ++ joinSep " | " parts ++ " |").length = 4 + (ml.sum + 3 * (ml.length - 1)) := by
  have hlen : parts.length = ml.length := by rw [← h, List.length_map]
  have hj := joinSep_length " | " parts
  rw [h, hlen] at hj
  simp only [String.length_append, hj]
  have h2 : ("| " : String).length = 2 := rfl
  have h3 : (" |" : String).length = 2 := rfl
  have h4 : (" | " : String).length = 3 := rfl
  rw [h2, h3, h4]
  omega

theorem selectRowsAux_subset : ∀ (rows : List (List String)) (inc : Bool) (idx : Nat)
    (row : List String), row ∈ selectRowsAux inc idx rows → row ∈ rows := by
  intro rows
  induction rows with
  | nil => intro inc idx row h; cases h
  | cons r rest ih =>
    intro inc idx row h
    simp only [selectRowsAux] at h
    split at h
    · exact List.mem_cons_of_mem r (ih _ _ row h)
    · rcases List.mem_cons.mp h with h2 | h2
      · subst h2; exact List.mem_cons_self row rest
      · exact List.mem_cons_of_mem r (ih _ _ row h2)

theorem selectedRows_subset (rows : List (List String)) (row : List String)
    (h : row ∈ selectedRows rows) : row ∈ rows :=
  selectRowsAux_subset rows false 0 row h

theorem padCells_getD : ∀ (cells : List String) (ms : List Nat) (j : Nat), j < cells.length →
    (padCells cells ms).getD j "" = padEnd (cells.getD j "") (ms.getD j 0) := by
  intro cells
  induction cells with
  | nil => intro ms j hj; simp at hj
  | cons c cs ih =>
    intro ms j hj
    cases ms with
    | nil =>
      cases j with
      | zero =>
        show c = padEnd c 0
        simp [padEnd]
      | succ j2 =>
        simp only [padCells, List.getD_cons_succ]
        exact ih [] j2 (Nat.lt_of_succ_lt_succ hj)
    | cons m ms2 =>
      cases j with
      | zero => rfl
      | succ j2 =>
        simp only [padCells, List.getD_cons_succ]
        exact ih ms2 j2 (Nat.lt_of_succ_lt_succ hj)

/-- C8: in the dynamic-width HTML variant, for a table whose body rows each
have exactly one cell per header column, each column's printed width is the
maximum text length over the header label and that column's body cells
across the entire dataset before truncation; every line rendered between
the code-fence markers has the same total character length as the header
line, and no cell's text is truncated — each padded cell extends the
original cell text. -/
theorem html_dynamic_width_correct (headerCells : List String) (rows : List (List String))
    (hrect : ∀ row ∈ rows, row.length = headerCells.length) :
    (∀ j : Nat, j < headerCells.length →
      (maxLengthsOf headerCells rows).getD j 0 = specColumnWidth headerCells rows j) ∧
    (∀ line ∈ renderedLines headerCells rows,
      line.length = (lineOfCells (maxLengthsOf headerCells rows) headerCells).length) ∧
    (∀ cells, cells ∈ headerCells :: selectedRows rows → ∀ j : Nat, j < cells.length →
      ∃ tail : String,
        (padCells cells (maxLengthsOf headerCells rows)).getD j "" =
          cells.getD j "" ++ tail) := by
  have hbound : ∀ cells, cells ∈ headerCells :: selectedRows rows → ∀ j : Nat,
      (cells.getD j "").length ≤ (maxLengthsOf headerCells rows).getD j 0 := by
    intro cells hcells j
    rw [maxLengthsOf_getD headerCells rows hrect j, specColumnWidth]
    rcases List.mem_cons.mp hcells with h | h
    · subst h; exact le_foldr_max_init _ _
    · exact le_foldr_max_mem _ _ _
        (List.mem_map_of_mem _ (selectedRows_subset rows cells h))
  have hmlen : ∀ cells, cells ∈ headerCells :: selectedRows rows →
      cells.length = (maxLengthsOf headerCells rows).length := by
    intro cells hcells
    rw [maxLengthsOf_length]
    rcases List.mem_cons.mp hcells with h | h
    · subst h; rfl
    · exact hrect cells (selectedRows_subset rows cells h)
  have hpad : ∀ cells, cells ∈ headerCells :: selectedRows rows →
      (padCells cells (maxLengthsOf headerCells rows)).map String.length =
        maxLengthsOf headerCells rows := by
    intro cells hcells
    exact padCells_map_length cells _ (hmlen cells hcells) (fun j _ => hbound cells hcells j)
  have hlinelen : ∀ cells, cells ∈ headerCells :: selectedRows rows →
      (lineOfCells (maxLengthsOf headerCells rows) cells).length =
        4 + ((maxLengthsOf headerCells rows).sum +
          3 * ((maxLengthsOf headerCells rows).length - 1)) := by
    intro cells hcells
    rw [lineOfCells]
    exact joinSep_wrap_length _ _ (hpad cells hcells)
  refine ⟨fun j _ => maxLengthsOf_getD headerCells rows hrect j, ?_, ?_⟩
  · intro line hline
    have hhead := hlinelen headerCells (List.mem_cons_self _ _)
    rcases List.mem_cons.mp hline with h | h
    · subst h; rfl
    · rcases List.mem_cons.mp h with h2 | h2
      · subst h2
        rw [sepLine, joinSep_wrap_length _ _ (dash_lengths _), hhead]
      · obtain ⟨row, hrow, rfl⟩ := List.mem_map.mp h2
        rw [hlinelen row (List.mem_cons_of_mem _ hrow), hhead]
  · intro cells hcells j hj
    rw [padCells_getD cells _ j hj]
    exact ⟨_, rfl⟩

/-- Witness for C8 at a concrete two-column table. -/
theorem html_dynamic_width_correct_witness :
    (∀ row ∈ [["x", "yyy"], ["zzzz", "w"]], row.length = (["A", "BB"] : List String).length) ∧
    ((∀ j : Nat, j < (["A", "BB"] : List String).length →
      (maxLengthsOf ["A", "BB"] [["x", "yyy"], ["zzzz", "w"]]).getD j 0 =
        specColumnWidth ["A", "BB"] [["x", "yyy"], ["zzzz", "w"]] j) ∧
    (∀ line ∈ renderedLines ["A", "BB"] [["x", "yyy"], ["zzzz", "w"]],
      line.length =
        (lineOfCells (maxLengthsOf ["A", "BB"] [["x", "yyy"], ["zzzz", "w"]]) ["A", "BB"]).length) ∧
    (∀ cells, cells ∈ ["A", "BB"] :: selectedRows [["x", "yyy"], ["zzzz", "w"]] →
      ∀ j : Nat, j < cells.length →
      ∃ tail : String,
        (padCells cells (maxLengthsOf ["A", "BB"] [["x", "yyy"], ["zzzz", "w"]])).getD j "" =
          cells.getD j "" ++ tail)) :=
  ⟨by decide, html_dynamic_width_correct ["A", "BB"] [["x", "yyy"], ["zzzz", "w"]] (by decide)⟩

end Reporter
